import Mathlib

/-!
Verification of the awless repository's specified core: the SSH command
transport (`vendor/gopkg.in/src-d/go-git.v4/plumbing/transport/ssh/common.go`)
and the fetch helpers (`aws/fetch/helpers.go`).

The Go code is shallowly embedded: pure functions become Lean functions;
the stateful `command` session methods become functions from an explicit
`World` of collaborator behaviours (default-auth builder, dialer, channel
opener, closers) and a `Command` state to a result, the updated state, and
the ordered list of collaborator calls (`Event`s) performed before returning.
-/

namespace Awless

/-- One step of the chunking loop in `sliceOfSlice` (helpers.go lines 12-18):
the Go loop `for i := 0; i < len(in); i += maxLength`, with `maxLength = m + 1`
so that the step is positive. The Go slice `in[i : i+maxLength]` is
`(inp.drop i).take (m+1)` and `in[i:]` is `inp.drop i`. -/
def sliceOfSliceAux {α : Type} (inp : List α) (m : Nat) (i : Nat) : List (List α) :=
  if h : i < inp.length then
    (if i + (m + 1) < inp.length then (inp.drop i).take (m + 1) else inp.drop i)
      :: sliceOfSliceAux inp m (i + (m + 1))
  else []
termination_by inp.length - i
decreasing_by omega

/-- Go `sliceOfSlice(in []*string, maxLength int)` (helpers.go lines 5-21):
returns early with the empty result when `maxLength <= 0` or the input is
empty, otherwise runs the chunking loop from index 0. `maxLength` is a Go
`int`, embedded as `Int`; inside the loop it is positive, written `m + 1`
with `m = maxLength.toNat - 1`. -/
def sliceOfSlice {α : Type} (inp : List α) (maxLength : Int) : List (List α) :=
  if maxLength ≤ 0 then []
  else if inp.length = 0 then []
  else sliceOfSliceAux inp (maxLength.toNat - 1) 0

/-- Go `pluralizeIfNeeded(str string, n uint)` (helpers.go lines 44-49). -/
def pluralizeIfNeeded (str : String) (n : Nat) : String :=
  if n > 1 then str ++ "s" else str

/-- Go `transport.Endpoint` as the ssh transport uses it: `Host()`,
`Port()` (a Go `int`), `User()`, `Path()`. -/
structure Endpoint where
  host : String
  port : Int
  user : String
  path : String
deriving DecidableEq, Repr

/-- Go `error` values the embedded code can return: the two distinguished
transport errors and opaque errors from collaborators (network stack,
agent, remote). -/
inductive GoError where
  | errAlreadyConnected
  | errInvalidAuthMethod
  | other (msg : String)
deriving DecidableEq, Repr

deriving instance DecidableEq for Except

/-- The ssh package's `AuthMethod` capability set. `clientConfig()` always
succeeds and its contents are opaque to the claims, so only the result of
`hostKeyCallback()` is modelled (it may fail). `name` tags the value so
distinct methods are distinguishable. -/
structure AuthMethod where
  name : String
  hostKeyCallback : Except GoError Unit
deriving DecidableEq, Repr

/-- A `transport.AuthMethod` argument: either a value that satisfies the ssh
`AuthMethod` capability set (the type assertion in `setAuth` succeeds) or
one that does not. -/
inductive TransportAuthMethod where
  | sshAuth (a : AuthMethod)
  | nonSSH (name : String)
deriving DecidableEq, Repr

/-- An `*ssh.Client` handle (the secure connection), identified by an id. -/
structure SSHClient where
  id : Nat
deriving DecidableEq, Repr

/-- An `*ssh.Session` handle (the session channel), identified by an id. -/
structure SSHSession where
  id : Nat
deriving DecidableEq, Repr

/-- The `command` struct of common.go lines 38-45: the embedded
`*ssh.Session`, the `connected` flag, the command string, the endpoint, the
`*ssh.Client`, and the resolved ssh `AuthMethod`. Go nil pointers are
`none`. -/
structure Command where
  session : Option SSHSession
  connected : Bool
  command : String
  endpoint : Endpoint
  client : Option SSHClient
  auth : Option AuthMethod
deriving DecidableEq, Repr

/-- One observable collaborator call: invoking the default-auth builder,
dialing an address, opening a session channel on the dialed client, closing
the session channel, closing the client connection. -/
inductive Event where
  | builderCall (user : String)
  | dialCall (addr : String)
  | newSessionCall
  | sessionCloseCall
  | clientCloseCall
deriving DecidableEq, Repr

/-- Whether an event is a call to the default-auth builder. -/
def Event.isBuilder : Event → Bool
  | .builderCall _ => true
  | _ => false

/-- The behaviour of the external collaborators: `DefaultAuthBuilder`,
`ssh.Dial`, `(*ssh.Client).NewSession`, `(*ssh.Session).Close`,
`(*ssh.Client).Close`. The client configuration passed to `ssh.Dial` is
opaque to the claims and omitted from the dial argument. -/
structure World where
  builder : String → Except GoError AuthMethod
  dial : String → Except GoError SSHClient
  newSession : SSHClient → Except GoError SSHSession
  sessionClose : SSHSession → Option GoError
  clientClose : SSHClient → Option GoError

/-- Go `(*command).setAuth` (common.go lines 47-55): the type assertion
`auth.(AuthMethod)`; on failure returns `transport.ErrInvalidAuthMethod`
and leaves the state unchanged. -/
def setAuth (c : Command) (auth : TransportAuthMethod) : Option GoError × Command :=
  match auth with
  | .sshAuth a => (none, { c with auth := some a })
  | .nonSSH _ => (some .errInvalidAuthMethod, c)

/-- Go `(*command).getHostWithPort` (common.go lines 113-121):
`fmt.Sprintf("%s:%d", host, port)` with `DefaultPort = 22` substituted when
`port <= 0`. -/
def Command.getHostWithPort (c : Command) : String :=
  let host := c.endpoint.host
  let port : Int := if c.endpoint.port ≤ 0 then 22 else c.endpoint.port
  host ++ ":" ++ toString port

/-- Go `endpointToCommand` (common.go lines 129-131):
`fmt.Sprintf("%s '%s'", cmd, ep.Path())`. -/
def endpointToCommand (cmd : String) (ep : Endpoint) : String :=
  cmd ++ " '" ++ ep.path ++ "'"

/-- Go `(*command).setAuthFromEndpoint` (common.go lines 123-127): calls
`DefaultAuthBuilder(c.endpoint.User())` and assigns the result (nil on
failure) to `c.auth`, returning the builder's error. -/
def setAuthFromEndpoint (w : World) (c : Command) : Option GoError × Command × List Event :=
  match w.builder c.endpoint.user with
  | .ok a => (none, { c with auth := some a }, [.builderCall c.endpoint.user])
  | .error e => (some e, { c with auth := none }, [.builderCall c.endpoint.user])

/-- Go `(*command).connect` (common.go lines 80-111): fail fast when already
connected; resolve a default auth method when none is set; obtain the host
key callback (failing if it cannot be produced); dial; open one session
channel, closing the just-dialed client when that fails; only then set
`connected`. A nil `c.auth` surviving to the callback call would be a Go
nil-pointer panic, modelled as an `other` error (unreachable: the builder
path either sets it or returns first). -/
def Command.connect (w : World) (c : Command) : Option GoError × Command × List Event :=
  if c.connected then (some .errAlreadyConnected, c, [])
  else
    match (if c.auth = none then setAuthFromEndpoint w c else (none, c, [])) with
    | (some e, c1, t1) => (some e, c1, t1)
    | (none, c1, t1) =>
      match c1.auth with
      | none => (some (.other "nil pointer dereference"), c1, t1)
      | some a =>
        match a.hostKeyCallback with
        | .error e => (some e, c1, t1)
        | .ok _ =>
          match w.dial c1.getHostWithPort with
          | .error e => (some e, c1, t1 ++ [.dialCall c1.getHostWithPort])
          | .ok cl =>
            let c2 : Command := { c1 with client := some cl }
            match w.newSession cl with
            | .error e =>
              (some e, c2,
                t1 ++ [.dialCall c1.getHostWithPort, .newSessionCall, .clientCloseCall])
            | .ok s =>
              (none, { c2 with session := some s, connected := true },
                t1 ++ [.dialCall c1.getHostWithPort, .newSessionCall])

/-- Go `(*command).Close` (common.go lines 62-74): a no-op returning nil when
not connected; otherwise flips `connected` to false first, calls
`c.Session.Close()` discarding its error, then returns `c.client.Close()`.
Nil handles here would be Go nil-pointer panics, modelled as an `other`
error (unreachable for sessions built by `connect`). -/
def Command.Close (w : World) (c : Command) : Option GoError × Command × List Event :=
  if c.connected = false then (none, c, [])
  else
    let c1 : Command := { c with connected := false }
    match c1.session, c1.client with
    | some s, some cl =>
      let _sessionErr := w.sessionClose s
      (w.clientClose cl, c1, [.sessionCloseCall, .clientCloseCall])
    | _, _ => (some (.other "nil pointer dereference"), c1, [])

/-- The zero-valued `command` struct that `(*runner).Command` builds on
common.go line 27: `&command{command: cmd, endpoint: ep}`. -/
def mkCommand (cmd : String) (ep : Endpoint) : Command :=
  { session := none, connected := false, command := cmd, endpoint := ep,
    client := none, auth := none }

/-- Go `(*runner).Command` (common.go lines 26-36): builds the zero-valued
`command` with the given command string and endpoint; when `auth` is non-nil
it calls `c.setAuth(auth)` WITHOUT checking the returned error (the result
of `setAuth` is dropped on line 29); then calls `connect`, failing when it
fails. -/
def runnerCommand (w : World) (cmd : String) (ep : Endpoint)
    (auth : Option TransportAuthMethod) : Except GoError Command × List Event :=
  let c : Command := mkCommand cmd ep
  let c1 : Command :=
    match auth with
    | some a => (setAuth c a).2
    | none => c
  match Command.connect w c1 with
  | (some e, _, t) => (.error e, t)
  | (none, c2, t) => (.ok c2, t)

/-- The endpoint of the spec's scenario:
`{host="example.com", port=0, user="git", path="/repo.git"}`. -/
def epExample : Endpoint :=
  { host := "example.com", port := 0, user := "git", path := "/repo.git" }

/-- A valid ssh auth method whose host-key callback succeeds. -/
def authOK : AuthMethod := { name := "publickeys", hostKeyCallback := .ok () }

/-- A world where every collaborator call succeeds. -/
def wOK : World where
  builder u := .ok { name := "agent@" ++ u, hostKeyCallback := .ok () }
  dial _ := .ok ⟨1⟩
  newSession _ := .ok ⟨7⟩
  sessionClose _ := none
  clientClose _ := none

/-- A world where the dial succeeds but opening the session channel fails. -/
def wChanFail : World :=
  { wOK with newSession := fun _ => .error (.other "open failed") }

/-- A not-yet-connected session for the scenario endpoint with a valid auth
method already set. -/
def cExample : Command :=
  { session := none, connected := false, command := "git-upload-pack",
    endpoint := epExample, client := none, auth := some authOK }

/-- A session in the state a successful `connect` under `wOK` leaves it. -/
def cConnected : Command :=
  { session := some ⟨7⟩, connected := true, command := "git-upload-pack",
    endpoint := epExample, client := some ⟨1⟩, auth := some authOK }

/-- A session for the scenario endpoint with an explicit positive port 2222. -/
def cPort : Command :=
  { cExample with endpoint := { epExample with port := 2222 } }

/-- A session state whose auth resolution succeeds under `w`: the explicit
auth method, when set, produces its host-key callback, and otherwise the
default-auth builder yields a method that does. This is the precondition
under which `connect` reaches the dial. -/
def authResolves (w : World) (c : Command) : Prop :=
  (∀ a, c.auth = some a → a.hostKeyCallback = Except.ok ()) ∧
  (c.auth = none →
    ∃ a, w.builder c.endpoint.user = Except.ok a ∧ a.hostKeyCallback = Except.ok ())

/-- A world whose default-auth builder fails (the agent is unreachable). -/
def wBuildFail : World :=
  { wOK with builder := fun _ => .error (.other "agent unreachable") }

/-- C1: the spec claims a non-nil auth argument that does not satisfy the
AuthMethod capability set makes `runner.Command` fail with InvalidAuthMethod
before any network I/O, without consulting the default-auth builder. The code
drops the error of `c.setAuth(auth)` (common.go line 29): at the failing
input below, construction succeeds, the default-auth builder is called and a
connection is dialed, and the result is not ErrInvalidAuthMethod. -/
theorem runnerCommand_drops_invalid_auth :
    runnerCommand wOK "git-upload-pack" epExample
        (some (.nonSSH "http-basic-auth")) =
      (.ok { session := some ⟨7⟩, connected := true, command := "git-upload-pack",
             endpoint := epExample, client := some ⟨1⟩,
             auth := some { name := "agent@git", hostKeyCallback := .ok () } },
       [.builderCall "git", .dialCall "example.com:22", .newSessionCall]) ∧
    (runnerCommand wOK "git-upload-pack" epExample
        (some (.nonSSH "http-basic-auth"))).1 ≠
      Except.error GoError.errInvalidAuthMethod :=
  ⟨rfl, by decide⟩

/-- C3: a second `connect` on an already-connected session returns
ErrAlreadyConnected, leaves the whole session state exactly as it was, and
performs no collaborator call. -/
theorem connect_already_connected (w : World) (c : Command)
    (h : c.connected = true) :
    Command.connect w c = (some GoError.errAlreadyConnected, c, []) := by
  simp [Command.connect, h]

/-- Witness for C3 at the concrete connected session `cConnected`. -/
theorem connect_already_connected_witness :
    Command.connect wOK cConnected = (some GoError.errAlreadyConnected, cConnected, []) :=
  connect_already_connected wOK cConnected rfl

/-- C4: `Close` on a connected session flips `connected` to false, closes the
session channel (its error discarded: the returned value does not depend on
`w.sessionClose`), then closes the connection — the connection close is
attempted (it appears in the call trace after the channel close) for every
`w`, including those whose channel close fails — and returns exactly the
error produced by the connection close. -/
theorem close_connected_cascades (w : World) (c : Command) (s : SSHSession)
    (cl : SSHClient) (hc : c.connected = true) (hs : c.session = some s)
    (hcl : c.client = some cl) :
    Command.Close w c =
      (w.clientClose cl, { c with connected := false },
       [Event.sessionCloseCall, Event.clientCloseCall]) := by
  simp [Command.Close, hc, hs, hcl]

/-- Witness for C4 at the concrete connected session `cConnected`. -/
theorem close_connected_cascades_witness :
    Command.Close wOK cConnected =
      (none, { cConnected with connected := false },
       [Event.sessionCloseCall, Event.clientCloseCall]) := by
  simpa using close_connected_cascades wOK cConnected ⟨7⟩ ⟨1⟩ rfl rfl rfl

/-- C5: `Close` on a never-connected session returns no error, leaves the
state unchanged and performs no collaborator call. -/
theorem close_not_connected_noop (w : World) (c : Command)
    (h : c.connected = false) :
    Command.Close w c = (none, c, []) := by
  simp [Command.Close, h]

/-- Witness for C5 at the concrete unconnected session `cExample`. -/
theorem close_not_connected_noop_witness :
    Command.Close wOK cExample = (none, cExample, []) :=
  close_not_connected_noop wOK cExample rfl

/-- C6: the resolved dial address is `host:port` with the endpoint's port
when it is positive and the default port 22 when it is unset or
non-positive. -/
theorem getHostWithPort_resolved (c : Command) :
    (0 < c.endpoint.port →
      c.getHostWithPort = c.endpoint.host ++ ":" ++ toString c.endpoint.port) ∧
    (c.endpoint.port ≤ 0 →
      c.getHostWithPort = c.endpoint.host ++ ":" ++ "22") := by
  constructor
  · intro h
    simp only [Command.getHostWithPort]
    rw [if_neg (by omega)]
  · intro h
    simp only [Command.getHostWithPort]
    rw [if_pos h]
    rfl

/-- Witness for C6 at port 0 (`cExample`) and at port 2222 (`cPort`). -/
theorem getHostWithPort_resolved_witness :
    Command.getHostWithPort cExample = "example.com" ++ ":" ++ "22" ∧
    Command.getHostWithPort cPort = "example.com" ++ ":" ++ toString (2222 : Int) :=
  ⟨(getHostWithPort_resolved cExample).2 (by decide),
   (getHostWithPort_resolved cPort).1 (by decide)⟩

/-- C7: the formatted remote command line is the command name, one space, and
the path wrapped in single quotes exactly once as the sole trailing token;
the spec's scenario resolves to `git-upload-pack '/repo.git'` with dial
address `example.com:22`; an embedded single quote in the path passes
through unchanged. -/
theorem endpointToCommand_format :
    (∀ (cmd : String) (ep : Endpoint),
      endpointToCommand cmd ep = cmd ++ " " ++ "'" ++ ep.path ++ "'") ∧
    endpointToCommand "git-upload-pack" epExample = "git-upload-pack '/repo.git'" ∧
    Command.getHostWithPort cExample = "example.com:22" ∧
    endpointToCommand "git-upload-pack" { epExample with path := "/o'brien.git" } =
      "git-upload-pack '/o'brien.git'" := by
  refine ⟨fun cmd ep => ?_, rfl, rfl, rfl⟩
  show cmd ++ " '" ++ ep.path ++ "'" = cmd ++ " " ++ "'" ++ ep.path ++ "'"
  rw [String.append_assoc cmd " " "'"]
  rfl

/-- C2: when the dial succeeds but opening the session channel fails,
`connect` returns the channel-open error, the `connected` flag remains
false, and the just-opened connection is closed before the error is
surfaced: the call trace performed before returning ends with the dial, the
failed channel open, and then the connection close. -/
theorem connect_closes_client_on_channel_failure (w : World) (c : Command)
    (cl : SSHClient) (e : GoError) (hc : c.connected = false)
    (ha : authResolves w c)
    (hd : w.dial c.getHostWithPort = .ok cl)
    (hn : w.newSession cl = .error e) :
    (Command.connect w c).1 = some e ∧
    (Command.connect w c).2.1.connected = false ∧
    ∃ t0, (Command.connect w c).2.2 =
      t0 ++ [Event.dialCall c.getHostWithPort, Event.newSessionCall,
             Event.clientCloseCall] := by
  rcases hauth : c.auth with _ | a
  · obtain ⟨a, hb, hk⟩ := ha.2 hauth
    simp only [Command.getHostWithPort] at hd
    refine ⟨?_, ?_, ⟨[Event.builderCall c.endpoint.user], ?_⟩⟩ <;>
      simp [Command.connect, hc, hauth, setAuthFromEndpoint, hb, hk, hd, hn,
            Command.getHostWithPort]
  · have hk := ha.1 a hauth
    simp only [Command.getHostWithPort] at hd
    refine ⟨?_, ?_, ⟨[], ?_⟩⟩ <;>
      simp [Command.connect, hc, hauth, hk, hd, hn, Command.getHostWithPort]

/-- Witness for C2 at the concrete session `cExample` under `wChanFail`. -/
theorem connect_closes_client_on_channel_failure_witness :
    (Command.connect wChanFail cExample).1 = some (.other "open failed") ∧
    (Command.connect wChanFail cExample).2.1.connected = false ∧
    ∃ t0, (Command.connect wChanFail cExample).2.2 =
      t0 ++ [Event.dialCall cExample.getHostWithPort, Event.newSessionCall,
             Event.clientCloseCall] :=
  connect_closes_client_on_channel_failure wChanFail cExample ⟨1⟩
    (.other "open failed")
    rfl ⟨fun a h => by cases h; rfl, fun h => by cases h⟩ rfl rfl

/-- The call trace of `connect` contains no builder call when an auth method
is already set on the session. -/
lemma connect_trace_no_builder (w : World) (c : Command) (a : AuthMethod)
    (ha : c.auth = some a) :
    (Command.connect w c).2.2.filter Event.isBuilder = [] := by
  by_cases hc : c.connected = true
  · simp [Command.connect, hc]
  · rcases hk : a.hostKeyCallback with e1 | u
    · simp [Command.connect, hc, ha, hk, Event.isBuilder]
    · rcases hdl : w.dial c.getHostWithPort with e2 | cl <;>
        simp only [Command.getHostWithPort] at hdl
      · simp [Command.connect, hc, ha, hk, hdl, Event.isBuilder,
              Command.getHostWithPort]
      · rcases hns : w.newSession cl with e3 | s <;>
          simp [Command.connect, hc, ha, hk, hdl, hns, Event.isBuilder,
                Command.getHostWithPort]

/-- The call trace of `connect` on a fresh session with no auth method set
contains exactly one builder call, with the endpoint's user. -/
lemma connect_trace_builder_once (w : World) (c : Command)
    (hc : c.connected = false) (ha : c.auth = none) :
    (Command.connect w c).2.2.filter Event.isBuilder =
      [Event.builderCall c.endpoint.user] := by
  rcases hb : w.builder c.endpoint.user with e1 | b
  · simp [Command.connect, hc, ha, setAuthFromEndpoint, hb, Event.isBuilder]
  · rcases hk : b.hostKeyCallback with e2 | u
    · simp [Command.connect, hc, ha, setAuthFromEndpoint, hb, hk, Event.isBuilder]
    · rcases hdl : w.dial c.getHostWithPort with e3 | cl <;>
        simp only [Command.getHostWithPort] at hdl
      · simp [Command.connect, hc, ha, setAuthFromEndpoint, hb, hk, hdl,
              Event.isBuilder, Command.getHostWithPort]
      · rcases hns : w.newSession cl with e4 | s <;>
          simp [Command.connect, hc, ha, setAuthFromEndpoint, hb, hk, hdl,
                hns, Event.isBuilder, Command.getHostWithPort]

/-- When the default-auth builder fails, `connect` on a fresh session with no
auth method set returns exactly the builder's error, after the single
builder call. -/
lemma connect_builder_error_result (w : World) (c : Command) (e : GoError)
    (hc : c.connected = false) (ha : c.auth = none)
    (hb : w.builder c.endpoint.user = .error e) :
    Command.connect w c =
      (some e, { c with auth := none }, [Event.builderCall c.endpoint.user]) := by
  simp [Command.connect, hc, ha, setAuthFromEndpoint, hb]

/-- C8: with a valid explicit auth method set at construction, `connect`
never invokes the default-auth builder; with nil auth, the builder is
invoked exactly once, with the endpoint's user; and when the builder fails,
its error is the error `runner.Command` returns. -/
theorem runnerCommand_builder_usage (w : World) (cmd : String) (ep : Endpoint)
    (a : AuthMethod) (e : GoError) :
    (Command.connect w
        (setAuth (mkCommand cmd ep) (.sshAuth a)).2).2.2.filter Event.isBuilder = [] ∧
    (Command.connect w (mkCommand cmd ep)).2.2.filter Event.isBuilder =
      [Event.builderCall ep.user] ∧
    (w.builder ep.user = .error e →
      runnerCommand w cmd ep none = (.error e, [Event.builderCall ep.user])) := by
  refine ⟨connect_trace_no_builder w _ a rfl, ?_, ?_⟩
  · simpa using connect_trace_builder_once w (mkCommand cmd ep) rfl rfl
  · intro hb
    have h := connect_builder_error_result w (mkCommand cmd ep) e rfl rfl
      (by simpa [mkCommand] using hb)
    simp only [mkCommand] at h
    simp [runnerCommand, mkCommand, h]

/-- Witness for C8: under the failing-builder world, nil auth yields exactly
the builder's error after a single builder call with the endpoint's user. -/
theorem runnerCommand_builder_usage_witness :
    runnerCommand wBuildFail "git-upload-pack" epExample none =
      (.error (.other "agent unreachable"), [Event.builderCall "git"]) :=
  (runnerCommand_builder_usage wBuildFail "git-upload-pack" epExample authOK
    (.other "agent unreachable")).2.2 rfl

/-- C10: `pluralizeIfNeeded` appends "s" if and only if `n > 1`; in
particular `n = 0` returns the string unchanged. -/
theorem pluralizeIfNeeded_spec (str : String) (n : Nat) :
    (pluralizeIfNeeded str n = str ++ "s" ↔ 1 < n) ∧
    pluralizeIfNeeded str 0 = str := by
  refine ⟨⟨fun h => ?_, fun h => by simp [pluralizeIfNeeded, h]⟩, rfl⟩
  by_contra hn
  rw [pluralizeIfNeeded, if_neg hn] at h
  have hlen := congrArg String.length h
  rw [String.length_append] at hlen
  have hs : "s".length = 1 := rfl
  omega

/-- Concatenating the chunks the loop produces from index `i` restores the
input from index `i` on. `k` bounds the remaining length for the induction. -/
lemma sliceOfSliceAux_join {α : Type} (inp : List α) (m : Nat) :
    ∀ (k i : Nat), inp.length - i ≤ k →
      (sliceOfSliceAux inp m i).flatten = inp.drop i := by
  intro k
  induction k with
  | zero =>
    intro i h
    rw [sliceOfSliceAux, dif_neg (by omega)]
    simp [List.drop_eq_nil_of_le (by omega : inp.length ≤ i)]
  | succ k ih =>
    intro i h
    by_cases hi : i < inp.length
    · rw [sliceOfSliceAux, dif_pos hi, List.flatten_cons, ih (i + (m + 1)) (by omega)]
      by_cases hlt : i + (m + 1) < inp.length
      · rw [if_pos hlt]
        have hdd : inp.drop (i + (m + 1)) = (inp.drop i).drop (m + 1) := by
          rw [List.drop_drop]
        rw [hdd, List.take_append_drop]
      · rw [if_neg hlt, List.drop_eq_nil_of_le (by omega : inp.length ≤ i + (m + 1)),
            List.append_nil]
    · rw [sliceOfSliceAux, dif_neg hi]
      simp [List.drop_eq_nil_of_le (by omega : inp.length ≤ i)]

/-- Every chunk the loop produces has length at most `m + 1`. -/
lemma sliceOfSliceAux_length_le {α : Type} (inp : List α) (m : Nat) :
    ∀ (k i : Nat), inp.length - i ≤ k →
      ∀ ch ∈ sliceOfSliceAux inp m i, ch.length ≤ m + 1 := by
  intro k
  induction k with
  | zero =>
    intro i h ch hch
    rw [sliceOfSliceAux, dif_neg (by omega)] at hch
    simp at hch
  | succ k ih =>
    intro i h ch hch
    by_cases hi : i < inp.length
    · rw [sliceOfSliceAux, dif_pos hi, List.mem_cons] at hch
      rcases hch with hch | hch
      · by_cases hlt : i + (m + 1) < inp.length
        · rw [if_pos hlt] at hch
          subst hch
          simp [List.length_take]
        · rw [if_neg hlt] at hch
          subst hch
          simp only [List.length_drop]
          omega
      · exact ih (i + (m + 1)) (by omega) ch hch
    · rw [sliceOfSliceAux, dif_neg hi] at hch
      simp at hch

/-- The loop's chunk list from an index below the length is non-empty. -/
lemma sliceOfSliceAux_ne_nil {α : Type} (inp : List α) (m : Nat) (i : Nat)
    (h : i < inp.length) : sliceOfSliceAux inp m i ≠ [] := by
  rw [sliceOfSliceAux, dif_pos h]
  simp

/-- Every chunk the loop produces except the last has length exactly
`m + 1`. -/
lemma sliceOfSliceAux_dropLast {α : Type} (inp : List α) (m : Nat) :
    ∀ (k i : Nat), inp.length - i ≤ k →
      ∀ ch ∈ (sliceOfSliceAux inp m i).dropLast, ch.length = m + 1 := by
  intro k
  induction k with
  | zero =>
    intro i h ch hch
    rw [sliceOfSliceAux, dif_neg (by omega)] at hch
    simp at hch
  | succ k ih =>
    intro i h ch hch
    by_cases hi : i < inp.length
    · rw [sliceOfSliceAux, dif_pos hi] at hch
      by_cases hlt : i + (m + 1) < inp.length
      · rcases hrest : sliceOfSliceAux inp m (i + (m + 1)) with _ | ⟨r, rs⟩
        · exact absurd hrest (sliceOfSliceAux_ne_nil inp m _ hlt)
        · rw [hrest, List.dropLast_cons₂, List.mem_cons] at hch
          rcases hch with hch | hch
          · rw [if_pos hlt] at hch
            subst hch
            simp only [List.length_take, List.length_drop]
            omega
          · have := ih (i + (m + 1)) (by omega) ch
            rw [hrest] at this
            exact this hch
      · rw [show sliceOfSliceAux inp m (i + (m + 1)) = [] from by
              rw [sliceOfSliceAux, dif_neg (by omega)]] at hch
        simp at hch
    · rw [sliceOfSliceAux, dif_neg hi] at hch
      simp at hch

/-- C9: for `maxLength > 0` the chunks concatenate back to the input, every
chunk is at most `maxLength` long, and every chunk except possibly the last
is exactly `maxLength` long; for `maxLength ≤ 0` or an empty input the
result is empty. -/
theorem sliceOfSlice_spec {α : Type} (inp : List α) (L : Int) :
    (0 < L →
      (sliceOfSlice inp L).flatten = inp ∧
      (∀ ch ∈ sliceOfSlice inp L, (ch.length : Int) ≤ L) ∧
      (∀ ch ∈ (sliceOfSlice inp L).dropLast, (ch.length : Int) = L)) ∧
    ((L ≤ 0 ∨ inp = []) → sliceOfSlice inp L = []) := by
  constructor
  · intro hL
    by_cases hnil : inp.length = 0
    · obtain rfl : inp = [] := List.length_eq_zero.mp hnil
      simp [sliceOfSlice]
    · unfold sliceOfSlice
      rw [if_neg (by omega), if_neg hnil]
      refine ⟨?_, ?_, ?_⟩
      · simpa using sliceOfSliceAux_join inp (L.toNat - 1) inp.length 0 (by omega)
      · intro ch hch
        have hle := sliceOfSliceAux_length_le inp (L.toNat - 1) inp.length 0
          (by omega) ch hch
        omega
      · intro ch hch
        have heq := sliceOfSliceAux_dropLast inp (L.toNat - 1) inp.length 0
          (by omega) ch hch
        omega
  · rintro (h | rfl)
    · unfold sliceOfSlice
      rw [if_pos h]
    · simp [sliceOfSlice]

/-- Witness for C9: chunking five elements by 2 restores them by
concatenation, and a non-positive `maxLength` yields the empty result. -/
theorem sliceOfSlice_spec_witness :
    (sliceOfSlice [1, 2, 3, 4, 5] (2 : Int)).flatten = [1, 2, 3, 4, 5] ∧
    sliceOfSlice ([1, 2, 3] : List Nat) (-1 : Int) = [] :=
  ⟨((sliceOfSlice_spec [1, 2, 3, 4, 5] 2).1 (by decide)).1,
   (sliceOfSlice_spec [1, 2, 3] (-1)).2 (Or.inl (by decide))⟩

end Awless
